import Mathlib

/-!
Checkout order composer (`src/page/funtion/Checkout.jsx`).

A shallow embedding of the logic of the `Checkout` component: the effect that
reconciles the three item sources, `validateForm`, the shipping rule and
`handleSubmit`, followed by the properties proved about them.

Conventions of the embedding.

* A JavaScript number is a `JsNum`, a double that holds an integer, an
  infinity or `NaN`: `some n` with `|n| < 2 ^ 1024` is the integer `n`,
  `some n` with `|n| ≥ 2 ^ 1024` is the infinity of the sign of `n`, and `none`
  is `NaN` (what `gia * so_luong` gives when `so_luong` is missing). `jsAdd`
  and `jsMul` round as the double operations do (53 significant bits, ties to
  even, overflow to infinity). Both zeros are `0`.
* A field the code reads through `||` or `?.` may be missing: it is an
  `Option`. `a || b` on a string picks `b` when `a` is missing or empty, on a
  number when `a` is missing, `NaN` or `0`.
* A string is read as its list of characters. The two regular expressions
  and `trim` only distinguish white space, `@`, `.` and the ASCII digits, all
  of which are single UTF-16 code units, so reading code points instead of
  code units does not change any result.
* React state is an explicit record; one call of a handler maps the state
  before to the state after, together with the effects it performed on the
  outside world, in order.
-/

namespace Checkout

/-! ## JavaScript values -/

/-- A JavaScript number holding an integer, an infinity or `NaN`: `some n`
is the integer `n` when `|n| < 2 ^ 1024` and the infinity of the sign of `n`
otherwise; `none` is `NaN`. -/
abbrev JsNum := Option Int

/-- The largest magnitude up to which every integer is a double: `2 ^ 53`. -/
def safeBound : Nat := 2 ^ 53

/-- The magnitude from which a double is infinite: `2 ^ 1024`. -/
def infBound : Nat := 2 ^ 256 * 2 ^ 256 * 2 ^ 256 * 2 ^ 256

/-- Whether an integer stands for an infinity. -/
def isInfinite (n : Int) : Bool :=
  decide (infBound ≤ n.natAbs)

/-- How many low bits of `a` do not fit in a significand of 53 bits: the
number of halvings that bring `a` below `2 ^ 53` (`fuel` bounds the count). -/
def excessBits : Nat → Nat → Nat
  | 0, _ => 0
  | fuel + 1, a => if a < safeBound then 0 else excessBits fuel (a / 2) + 1

/-- The natural number with at most 53 significant bits nearest to `a`, the
one with an even significand when two are equally near. -/
def roundNearestEven (a : Nat) : Nat :=
  if a ≤ safeBound then a
  else
    let e := excessBits a a
    let q := a / 2 ^ e
    let r := a % 2 ^ e
    let half := 2 ^ (e - 1)
    if half < r || (r == half && q % 2 == 1) then (q + 1) * 2 ^ e else q * 2 ^ e

/-- The double an exact integer result is rounded to; a result that rounds
to `2 ^ 1024` or more in magnitude is an infinity. -/
def roundDouble (n : Int) : Int :=
  let m := roundNearestEven n.natAbs
  let m := if infBound ≤ m then infBound else m
  if n < 0 then -(m : Int) else (m : Int)

/-- JavaScript `a + b` on numbers: `NaN` for a `NaN` operand or for two
infinities of opposite signs, an infinite operand otherwise when there is
one, `a` itself when `b` is zero, and else the exact sum rounded. -/
def jsAdd (a b : JsNum) : JsNum :=
  match a, b with
  | some x, some y =>
    if isInfinite x then
      if isInfinite y && (decide (x < 0) != decide (y < 0)) then none else some x
    else if isInfinite y then some y
    else if y = 0 then some x
    else some (roundDouble (x + y))
  | _, _ => none

/-- JavaScript `a * b` on numbers; a missing operand converts to `NaN`. With
an infinite operand the product is `NaN` when the other is zero and the
infinity of the product of the signs otherwise; else it is the exact product
rounded. -/
def jsMul (a b : JsNum) : JsNum :=
  match a, b with
  | some x, some y =>
    if isInfinite x || isInfinite y then
      if x == 0 || y == 0 then none
      else some (if decide (x < 0) != decide (y < 0) then -(infBound : Int) else (infBound : Int))
    else some (roundDouble (x * y))
  | _, _ => none

/-- JavaScript `a > n` for a number `a` and an integer literal `n`;
any comparison with `NaN` is false. -/
def jsGt (a : JsNum) (n : Int) : Bool :=
  match a with
  | some x => decide (n < x)
  | none => false

/-- JavaScript `a || d` where `a` is a possibly missing number: `0`, `NaN`
and `undefined` are falsy. -/
def numOr (a : Option Int) (d : Int) : Int :=
  match a with
  | some x => if x = 0 then d else x
  | none => d

/-- JavaScript `a || d` where `a` is a possibly missing string: the empty
string and `undefined` are falsy. -/
def strOr (a : Option String) (d : String) : String :=
  match a with
  | some s => if s = "" then d else s
  | none => d

/-- Whether a possibly missing string is truthy: present and not empty. -/
def strTruthy (a : Option String) : Bool :=
  match a with
  | some s => s != ""
  | none => false

/-! ## Data model -/

/-- An entry of `finalCartItems`. -/
structure LineItem where
  id_product : Option String
  ten : Option String
  gia : Int
  so_luong : Option Int
  danh_muc : Option String
  images : Option String
  deriving DecidableEq, Repr

/-- The record found in `location.state.product` (direct purchase). -/
structure DirectProduct where
  id : Option String
  ten : Option String
  gia : Int
  danh_muc : Option String
  images : Option (List String)
  deriving DecidableEq, Repr

/-- The line item pushed for a direct product (lines 52-59):
`images?.[0] || "/placeholder.jpg"` and `so_luong: 1`. -/
def directLineItem (d : DirectProduct) : LineItem :=
  { id_product := d.id
    ten := d.ten
    gia := d.gia
    so_luong := some 1
    danh_muc := d.danh_muc
    images := some (strOr (d.images.bind List.head?) "/placeholder.jpg") }

/-- The callback of `cartItemsFromRoute.reduce` (line 66). -/
def reduceStep (total : JsNum) (item : LineItem) : JsNum :=
  jsAdd total (jsMul (some item.gia) item.so_luong)

/-- The body of the `useEffect` at lines 46-77: the pair
`(calculatedCartItems, calculatedTotal)` that is stored into
`finalCartItems` and `finalTotalAmount`. `cartItems` and `totalAmount` come
from `useCart`, `directProduct` and `cartItemsFromRoute` from the route
state. -/
def calculateFinal (directProduct : Option DirectProduct)
    (cartItemsFromRoute : Option (List LineItem))
    (cartItems : Option (List LineItem)) (totalAmount : JsNum) :
    List LineItem × JsNum :=
  match directProduct with
  | some d => ([directLineItem d], some d.gia)
  | none =>
    match cartItemsFromRoute with
    | some (r :: rs) => (r :: rs, (r :: rs).foldl reduceStep (some 0))
    | _ =>
      match cartItems with
      | some (c :: cs) => (c :: cs, totalAmount)
      | _ => ([], some 0)

/-- Line 166: `finalTotalAmount > 1000000 ? 0 : 30000`. -/
def shippingCost (finalTotalAmount : JsNum) : Int :=
  if jsGt finalTotalAmount 1000000 then 0 else 30000

/-- Line 169: `finalTotalAmount + shippingCost`. -/
def orderTotal (finalTotalAmount : JsNum) : JsNum :=
  jsAdd finalTotalAmount (some (shippingCost finalTotalAmount))

/-! ## Strings and regular expressions -/

/-- The characters JavaScript treats as white space, both in `\s` and in
`String.prototype.trim` (WhiteSpace and LineTerminator of ECMA-262). -/
def isWhiteSpace (c : Char) : Bool :=
  let n := c.toNat
  n == 9 || n == 10 || n == 11 || n == 12 || n == 13 || n == 32 || n == 160
    || n == 0x1680 || (0x2000 ≤ n && n ≤ 0x200A) || n == 0x2028 || n == 0x2029
    || n == 0x202F || n == 0x205F || n == 0x3000 || n == 0xFEFF

/-- The class `\d`, which in JavaScript is `[0-9]`. -/
def isDigit (c : Char) : Bool :=
  48 ≤ c.toNat && c.toNat ≤ 57

/-- The class `[^\s@]` of the e-mail pattern. -/
def notSpaceAt (c : Char) : Bool :=
  !(isWhiteSpace c || c == '@')

/-- The class `[^0-9]` of the pattern given to `replace`. -/
def notDigit (c : Char) : Bool :=
  !isDigit c

/-- The method `String.prototype.trim`: white space removed at both ends. -/
def trim (s : List Char) : List Char :=
  ((s.dropWhile isWhiteSpace).reverse.dropWhile isWhiteSpace).reverse

/-- The test `!str.trim()`: the trimmed string is empty, hence falsy. -/
def isBlank (s : String) : Bool :=
  (trim s.toList).isEmpty

/-- The call `str.replace(/[cls]/g, "")` for a one-character class: every
character of the class is deleted. -/
def deleteAll (cls : Char → Bool) (s : List Char) : List Char :=
  s.filter (fun c => !cls c)

/-- Regular expressions over character classes: what the two patterns of
`validateForm` are built from. -/
inductive Regex where
  | never : Regex
  | empty : Regex
  | cls (p : Char → Bool) : Regex
  | seq (r s : Regex) : Regex
  | alt (r s : Regex) : Regex
  | star (r : Regex) : Regex

namespace Regex

/-- Whether the expression accepts the empty string. -/
def nullable : Regex → Bool
  | never => false
  | empty => true
  | cls _ => false
  | seq r s => r.nullable && s.nullable
  | alt r s => r.nullable || s.nullable
  | star _ => true

/-- The expression accepting `w` exactly when the given one accepts `c :: w`. -/
def deriv : Regex → Char → Regex
  | never, _ => never
  | empty, _ => never
  | cls p, c => if p c then empty else never
  | seq r s, c =>
    if r.nullable then alt (seq (r.deriv c) s) (s.deriv c) else seq (r.deriv c) s
  | alt r s, c => alt (r.deriv c) (s.deriv c)
  | star r, c => seq (r.deriv c) (star r)

/-- The call `/^r$/.test(w)`: the whole of `w` is accepted by `r`. -/
def test (r : Regex) (w : List Char) : Bool :=
  (w.foldl deriv r).nullable

/-- The quantifier `r+`. -/
def plus (r : Regex) : Regex :=
  seq r (star r)

/-- The quantifier `r?`. -/
def opt (r : Regex) : Regex :=
  alt r empty

/-- The quantifier `r{n}`. -/
def times : Nat → Regex → Regex
  | 0, _ => empty
  | n + 1, r => seq r (times n r)

/-- The quantifier `r{m,m+k}`: `m` copies, then up to `k` more. -/
def between (m : Nat) : Nat → Regex → Regex
  | 0, r => times m r
  | k + 1, r => seq (between m k r) (opt r)

end Regex

/-- Line 89: `/^[^\s@]+@[^\s@]+\.[^\s@]+$/`. -/
def emailPattern : Regex :=
  .seq (.plus (.cls notSpaceAt))
    (.seq (.cls (fun c => c == '@'))
      (.seq (.plus (.cls notSpaceAt))
        (.seq (.cls (fun c => c == '.')) (.plus (.cls notSpaceAt)))))

/-- Line 95: `/^\d{10,11}$/`. -/
def phonePattern : Regex :=
  .between 10 1 (.cls isDigit)

/-! ## Form validation -/

/-- The state `customerInfo`. -/
structure CustomerInfo where
  fullName : String
  email : String
  phone : String
  address : String
  city : String
  district : String
  ward : String
  note : String
  deriving DecidableEq, Repr

/-- The object `errors` of `validateForm`: a key is present when its field
is `some`. -/
structure FormErrors where
  fullName : Option String := none
  email : Option String := none
  phone : Option String := none
  address : Option String := none
  city : Option String := none
  district : Option String := none
  deriving DecidableEq, Repr

/-- The test `Object.keys(errors).length === 0`. -/
def FormErrors.noKeys (e : FormErrors) : Bool :=
  e.fullName.isNone && e.email.isNone && e.phone.isNone && e.address.isNone
    && e.city.isNone && e.district.isNone

/-- Lines 87-91: the `email` key of `errors`. -/
def emailError (email : String) : Option String :=
  if isBlank email then some "Vui lòng nhập email"
  else if !emailPattern.test email.toList then some "Email không hợp lệ"
  else none

/-- Lines 93-97: the `phone` key of `errors`. -/
def phoneError (phone : String) : Option String :=
  if isBlank phone then some "Vui lòng nhập số điện thoại"
  else if !phonePattern.test (deleteAll notDigit phone.toList) then
    some "Số điện thoại không hợp lệ"
  else none

/-- Lines 81-109: the object `errors` built by `validateForm`. -/
def validationErrors (c : CustomerInfo) : FormErrors :=
  { fullName := if isBlank c.fullName then some "Vui lòng nhập họ và tên" else none
    email := emailError c.email
    phone := phoneError c.phone
    address := if isBlank c.address then some "Vui lòng nhập địa chỉ" else none
    city := if isBlank c.city then some "Vui lòng chọn tỉnh/thành phố" else none
    district := if isBlank c.district then some "Vui lòng chọn quận/huyện" else none }

/-! ## Submission -/

/-- The React state of the component (lines 16-35). -/
structure State where
  finalCartItems : List LineItem
  finalTotalAmount : JsNum
  isProcessing : Bool
  error : String
  customerInfo : CustomerInfo
  formErrors : FormErrors
  paymentMethod : String
  deriving DecidableEq, Repr

/-- An element of `orderData.cartItems` (lines 127-133). -/
structure OrderItem where
  id_product : Option String
  ten : String
  gia : Int
  so_luong : Int
  danh_muc : String
  deriving DecidableEq, Repr

/-- The object `orderData` (lines 126-138), the body of the request. -/
structure OrderData where
  cartItems : List OrderItem
  customerInfo : CustomerInfo
  paymentMethod : String
  totalAmount : JsNum
  orderDate : String
  deriving DecidableEq, Repr

/-- The parsed body `result` of the response, with the fields the code reads. -/
structure Result where
  status : Option String
  message : Option String
  payUrl : Option String
  orderId : Option String
  deriving DecidableEq, Repr

/-- What `await response.json()` gives: a parsed object, or an exception
with its `message`. -/
inductive Body where
  | thrown (message : String)
  | json (result : Result)
  deriving DecidableEq, Repr

/-- What `await fetch(...)` gives: an exception with its `message`
(transport failure), or a response with its `ok` flag and its body. -/
inductive FetchOutcome where
  | thrown (message : String)
  | response (ok : Bool) (body : Body)
  deriving DecidableEq, Repr

/-- The actions of `handleSubmit` on the outside world. -/
inductive Effect where
  | post (url : String) (body : OrderData)
  | redirect (href : String)
  | clearCart
  | navigate (path : String) (orderId : Option String)
  deriving DecidableEq, Repr

/-- The callback of `finalCartItems.map` (lines 127-133). -/
def toOrderItem (item : LineItem) : OrderItem :=
  { id_product := item.id_product
    ten := strOr item.ten "Sản phẩm không xác định"
    gia := item.gia
    so_luong := numOr item.so_luong 1
    danh_muc := strOr item.danh_muc "Linh kiện" }

/-- Lines 126-138: `orderData`, with `now` for `new Date().toISOString()`. -/
def buildOrderData (s : State) (now : String) : OrderData :=
  { cartItems := s.finalCartItems.map toOrderItem
    customerInfo := s.customerInfo
    paymentMethod := s.paymentMethod
    totalAmount := s.finalTotalAmount
    orderDate := now }

/-- Lines 80-113: `validateForm` stores `errors` into `formErrors` and returns
whether `errors` has no key. -/
def validateForm (s : State) : State × Bool :=
  let errors := validationErrors s.customerInfo
  ({ s with formErrors := errors }, errors.noKeys)

/-- The `catch` block (lines 159-162). -/
def catchError (s : State) (message : String) : State :=
  { s with error := "Có lỗi xảy ra: " ++ message, isProcessing := false }

/-- Lines 116-163: `handleSubmit`. `now` is the clock reading and `backend`
what the network answers to a request; the result is the state after the
handler has run to completion and the effects it performed, in order. -/
def handleSubmit (s : State) (now : String) (backend : OrderData → FetchOutcome) :
    State × List Effect :=
  let (s1, valid) := validateForm s
  if !valid then (s1, [])
  else
    let s2 : State := { s1 with isProcessing := true, error := "" }
    let orderData := buildOrderData s now
    let sent := Effect.post "http://localhost/backend/payments.php" orderData
    match backend orderData with
    | .thrown message => (catchError s2 message, [sent])
    | .response _ (.thrown message) => (catchError s2 message, [sent])
    | .response ok (.json result) =>
      if ok && result.status == some "success" then
        if s.paymentMethod == "vnpay" && strTruthy result.payUrl then
          (s2, [sent, .redirect (result.payUrl.getD "")])
        else
          (s2, [sent, .clearCart, .navigate "/thankyou" result.orderId])
      else
        ({ s2 with
            error := strOr result.message "Có lỗi xảy ra trong quá trình xử lý",
            isProcessing := false }, [sent])

/-- Line 421: the `disabled` attribute of the checkout button. -/
def checkoutDisabled (s : State) : Bool :=
  s.isProcessing || s.finalCartItems.length == 0

/-- The buyer activating the checkout button (lines 418-424) of the form
(line 248). The browser does nothing when the button is disabled; otherwise it
checks the constraints the inputs declare (`required`, `type="email"`, lines
253-349), whose verdict on the values typed in is `constraintsOk`, and calls
the form's `onSubmit`, that is `handleSubmit`, only when they are met. -/
def pressCheckout (s : State) (constraintsOk : CustomerInfo → Bool) (now : String)
    (backend : OrderData → FetchOutcome) : State × List Effect :=
  if checkoutDisabled s then (s, [])
  else if constraintsOk s.customerInfo then handleSubmit s now backend
  else (s, [])

/-- The inputs of the form that write into `customerInfo`. -/
inductive Field where
  | fullName | email | phone | address | city | district | ward | note
  deriving DecidableEq, Repr

/-- The `onChange` handlers of lines 258-383:
`setCustomerInfo({ ...customerInfo, [field]: value })`. -/
def setField (c : CustomerInfo) (field : Field) (value : String) : CustomerInfo :=
  match field with
  | .fullName => { c with fullName := value }
  | .email => { c with email := value }
  | .phone => { c with phone := value }
  | .address => { c with address := value }
  | .city => { c with city := value }
  | .district => { c with district := value }
  | .ward => { c with ward := value }
  | .note => { c with note := value }

/-- What the buyer can do on the page: type into an input, pick one of the
two payment radios (lines 395 and 409), activate the checkout button. -/
inductive UiEvent where
  | change (field : Field) (value : String)
  | selectCod
  | selectVnpay
  | press (constraintsOk : CustomerInfo → Bool) (now : String)
      (backend : OrderData → FetchOutcome)

/-- The state after one event and the effects the event had. -/
def step (s : State) : UiEvent → State × List Effect
  | .change field value => ({ s with customerInfo := setField s.customerInfo field value }, [])
  | .selectCod => ({ s with paymentMethod := "cod" }, [])
  | .selectVnpay => ({ s with paymentMethod := "vnpay" }, [])
  | .press constraintsOk now backend => pressCheckout s constraintsOk now backend

/-- The state after a sequence of events and all the effects they had, in
order. -/
def run (s : State) : List UiEvent → State × List Effect
  | [] => (s, [])
  | event :: events =>
    ((run (step s event).1 events).1, (step s event).2 ++ (run (step s event).1 events).2)

/-! ## Words of the specification -/

/-- The shape `local@domain.tld`: three non-empty segments free of white
space and of `@`, separated by an `@` and by a dot. -/
def EmailShape (w : List Char) : Prop :=
  ∃ l d t : List Char,
    w = l ++ '@' :: (d ++ '.' :: t) ∧ l ≠ [] ∧ d ≠ [] ∧ t ≠ [] ∧
      (∀ c ∈ l, notSpaceAt c = true) ∧ (∀ c ∈ d, notSpaceAt c = true) ∧
      (∀ c ∈ t, notSpaceAt c = true)

/-- A blank string: nothing but white space. -/
def Blank (s : String) : Prop :=
  ∀ c ∈ s.toList, isWhiteSpace c = true

/-- The digits left in a string once every other character is deleted. -/
def digitsOf (s : String) : List Char :=
  s.toList.filter isDigit

/-- The exact sum of `gia × so_luong` over a list of line items, in the
integers; it is `none` when a quantity is missing (no product to add). -/
def lineSum : List LineItem → Option Int
  | [] => some 0
  | item :: rest =>
    match item.so_luong, lineSum rest with
    | some q, some t => some (item.gia * q + t)
    | _, _ => none

/-- An integer every double operation treats exactly: magnitude at most
`2 ^ 53`. -/
def SafeInt (n : Int) : Prop :=
  n.natAbs ≤ 2 ^ 53

/-- The sum of the magnitudes `|gia × so_luong|` over the line items that
have a quantity. -/
def lineMagnitude : List LineItem → Nat
  | [] => 0
  | item :: rest =>
    match item.so_luong with
    | some q => (item.gia * q).natAbs + lineMagnitude rest
    | none => lineMagnitude rest

/-- The language of a regular expression. -/
inductive Regex.Matches : Regex → List Char → Prop where
  | empty : Matches .empty []
  | cls {p : Char → Bool} {c : Char} : p c = true → Matches (.cls p) [c]
  | seq {r s : Regex} {u v : List Char} :
      Matches r u → Matches s v → Matches (.seq r s) (u ++ v)
  | altLeft {r s : Regex} {u : List Char} : Matches r u → Matches (.alt r s) u
  | altRight {r s : Regex} {u : List Char} : Matches s u → Matches (.alt r s) u
  | starNil {r : Regex} : Matches (.star r) []
  | starCons {r : Regex} {u v : List Char} :
      Matches r u → Matches (.star r) v → Matches (.star r) (u ++ v)

/-! ## Sample inputs -/

/-- A buyer record that passes every rule of `validateForm`. -/
def sampleBuyer : CustomerInfo :=
  { fullName := "Nguyen Van A"
    email := "a@b.c"
    phone := "0901234567"
    address := "12 Le Loi"
    city := "TP HCM"
    district := "Quận 1"
    ward := ""
    note := "" }

/-- A line item with the given unit price and quantity. -/
def sampleItem (gia : Int) (so_luong : Option Int) : LineItem :=
  { id_product := some "p1"
    ten := some "RAM 16GB"
    gia := gia
    so_luong := so_luong
    danh_muc := some "RAM"
    images := none }

/-- A direct product with the given price and no image. -/
def sampleProduct (gia : Int) : DirectProduct :=
  { id := some "p7", ten := some "SSD 1TB", gia := gia, danh_muc := some "SSD", images := none }

/-- The state once the effect has stored the reconciled items and total,
with the sample buyer typed in and the given payment method chosen. -/
def sampleState (out : List LineItem × JsNum) (paymentMethod : String) : State :=
  { finalCartItems := out.1
    finalTotalAmount := out.2
    isProcessing := false
    error := ""
    customerInfo := sampleBuyer
    formErrors := {}
    paymentMethod := paymentMethod }

/-- A backend that answers every request with the given response. -/
def replyWith (ok : Bool) (result : Result) : OrderData → FetchOutcome :=
  fun _ => .response ok (.json result)

/-- The order requests among a list of effects. -/
def postedOrders : List Effect → List OrderData
  | [] => []
  | .post _ body :: rest => body :: postedOrders rest
  | _ :: rest => postedOrders rest

/-- The clock reading used in the scenarios. -/
def sampleNow : String := "2025-01-15T08:30:00.000Z"

/-- Scenario A: direct purchase of a product priced 500,000, cash on delivery. -/
def scenarioA : State :=
  sampleState (calculateFinal (some (sampleProduct 500000)) none none (some 0)) "cod"

/-- Scenario B: two selected items adding up to 2,000,000, paid through VNPay. -/
def scenarioB : State :=
  sampleState (calculateFinal none
    (some [sampleItem 700000 (some 2), sampleItem 600000 (some 1)]) none (some 0)) "vnpay"

/-- Scenario C: nothing to buy (no product, no selection, empty cart), with
a valid buyer record. -/
def scenarioC : State :=
  sampleState (calculateFinal none none (some []) (some 0)) "cod"

/-- A selection whose single item carries the quantity -2. -/
def scenarioNegative : State :=
  sampleState (calculateFinal none (some [sampleItem 100 (some (-2))]) none (some 0)) "cod"

/-- Scenario B with two more selected items, one of quantity 0 and one
without quantity. -/
def scenarioDefaults : State :=
  { scenarioB with
    finalCartItems := scenarioB.finalCartItems ++ [sampleItem 5 (some 0), sampleItem 7 none] }

/-! ## Theorems -/

/-! ### Regular expressions: the matcher decides the language -/

namespace Regex

theorem not_matches_never (w : List Char) : ¬ Matches .never w := by
  intro h
  cases h

theorem matches_empty_iff (w : List Char) : Matches .empty w ↔ w = [] := by
  constructor
  · intro h
    cases h
    rfl
  · rintro rfl
    exact .empty

theorem matches_cls_iff (p : Char → Bool) (w : List Char) :
    Matches (.cls p) w ↔ ∃ c, w = [c] ∧ p c = true := by
  constructor
  · intro h
    cases h with
    | cls hc => exact ⟨_, rfl, hc⟩
  · rintro ⟨c, rfl, hc⟩
    exact .cls hc

theorem matches_seq_iff (r s : Regex) (w : List Char) :
    Matches (.seq r s) w ↔ ∃ u v, w = u ++ v ∧ Matches r u ∧ Matches s v := by
  constructor
  · intro h
    cases h with
    | seq hu hv => exact ⟨_, _, rfl, hu, hv⟩
  · rintro ⟨u, v, rfl, hu, hv⟩
    exact .seq hu hv

theorem matches_alt_iff (r s : Regex) (w : List Char) :
    Matches (.alt r s) w ↔ Matches r w ∨ Matches s w := by
  constructor
  · intro h
    cases h with
    | altLeft h => exact .inl h
    | altRight h => exact .inr h
  · rintro (h | h)
    · exact .altLeft h
    · exact .altRight h

/-- A non-empty word of `r*` starts with a non-empty word of `r`. -/
theorem matches_star_cons (r : Regex) (c : Char) (w : List Char)
    (h : Matches (.star r) (c :: w)) :
    ∃ u v, w = u ++ v ∧ Matches r (c :: u) ∧ Matches (.star r) v := by
  generalize hx : c :: w = x at h
  generalize hr : Regex.star r = q at h
  induction h generalizing w with
  | empty => cases hr
  | cls _ => cases hr
  | seq _ _ => cases hr
  | altLeft _ => cases hr
  | altRight _ => cases hr
  | starNil => cases hx
  | @starCons r0 u v hu hv _ ih =>
    cases hr
    cases u with
    | nil => exact ih w hx rfl
    | cons a u =>
      simp only [List.cons_append, List.cons.injEq] at hx
      obtain ⟨rfl, rfl⟩ := hx
      exact ⟨u, v, rfl, hu, hv⟩

theorem nullable_iff (r : Regex) : r.nullable = true ↔ Matches r [] := by
  induction r with
  | never => simp [nullable, not_matches_never]
  | empty => simp [nullable, matches_empty_iff]
  | cls p => simp [nullable, matches_cls_iff]
  | seq r s ihr ihs =>
    simp only [nullable, Bool.and_eq_true, ihr, ihs, matches_seq_iff]
    constructor
    · rintro ⟨hr, hs⟩
      exact ⟨[], [], rfl, hr, hs⟩
    · rintro ⟨u, v, huv, hr, hs⟩
      obtain ⟨rfl, rfl⟩ := List.append_eq_nil.mp huv.symm
      exact ⟨hr, hs⟩
  | alt r s ihr ihs =>
    simp only [nullable, Bool.or_eq_true, ihr, ihs, matches_alt_iff]
  | star r _ =>
    simp only [nullable, true_iff]
    exact .starNil

theorem matches_deriv_iff (r : Regex) (c : Char) (w : List Char) :
    Matches (r.deriv c) w ↔ Matches r (c :: w) := by
  induction r generalizing w with
  | never => simp [deriv, not_matches_never]
  | empty => simp [deriv, not_matches_never, matches_empty_iff]
  | cls p =>
    by_cases hp : p c = true
    · simp only [deriv, hp, if_true, matches_empty_iff, matches_cls_iff]
      constructor
      · rintro rfl
        exact ⟨c, rfl, hp⟩
      · rintro ⟨a, ha, -⟩
        simp only [List.cons.injEq] at ha
        exact ha.2
    · have hf : p c = false := by simpa using hp
      simp only [deriv, hf, matches_cls_iff]
      constructor
      · intro h
        exact absurd h (not_matches_never w)
      · rintro ⟨a, ha, hpa⟩
        simp only [List.cons.injEq] at ha
        obtain ⟨rfl, -⟩ := ha
        exact absurd hpa hp
  | seq r s ihr ihs =>
    have key : Matches (.seq r s) (c :: w) ↔
        (∃ u v, w = u ++ v ∧ Matches r (c :: u) ∧ Matches s v) ∨
          (Matches r [] ∧ Matches s (c :: w)) := by
      rw [matches_seq_iff]
      constructor
      · rintro ⟨u, v, huv, hu, hv⟩
        cases u with
        | nil =>
          simp only [List.nil_append] at huv
          subst huv
          exact .inr ⟨hu, hv⟩
        | cons a u =>
          simp only [List.cons_append, List.cons.injEq] at huv
          obtain ⟨rfl, rfl⟩ := huv
          exact .inl ⟨u, v, rfl, hu, hv⟩
      · rintro (⟨u, v, rfl, hu, hv⟩ | ⟨hr, hs⟩)
        · exact ⟨c :: u, v, rfl, hu, hv⟩
        · exact ⟨[], c :: w, rfl, hr, hs⟩
    rw [key]
    by_cases hn : r.nullable = true
    · simp only [deriv, hn, if_true, matches_alt_iff, matches_seq_iff, ihr, ihs]
      have hr := (nullable_iff r).mp hn
      simp [hr]
    · have hf : r.nullable = false := by simpa using hn
      have hr : ¬ Matches r [] := fun h => hn ((nullable_iff r).mpr h)
      simp [deriv, hf, matches_seq_iff, ihr, hr]
  | alt r s ihr ihs =>
    simp only [deriv, matches_alt_iff, ihr, ihs]
  | star r ihr =>
    simp only [deriv, matches_seq_iff, ihr]
    constructor
    · rintro ⟨u, v, rfl, hu, hv⟩
      exact .starCons hu hv
    · intro h
      exact matches_star_cons r c w h

/-- The matcher accepts exactly the language of the expression. -/
theorem test_iff (r : Regex) (w : List Char) : r.test w = true ↔ Matches r w := by
  induction w generalizing r with
  | nil => simpa [test] using nullable_iff r
  | cons c w ih =>
    have := ih (r.deriv c)
    simp only [test, List.foldl_cons] at this ⊢
    rw [this, matches_deriv_iff]

end Regex

namespace Regex

theorem matches_star_cls_iff (p : Char → Bool) (w : List Char) :
    Matches (.star (.cls p)) w ↔ ∀ c ∈ w, p c = true := by
  induction w with
  | nil =>
    simp only [List.not_mem_nil, false_implies, implies_true, iff_true]
    exact .starNil
  | cons a w ih =>
    constructor
    · intro h
      obtain ⟨u, v, rfl, hu, hv⟩ := matches_star_cons _ a w h
      obtain ⟨b, hb, hpb⟩ := (matches_cls_iff p _).mp hu
      simp only [List.cons.injEq] at hb
      obtain ⟨rfl, rfl⟩ := hb
      intro c hc
      rcases List.mem_cons.mp hc with rfl | hc
      · exact hpb
      · exact ih.mp hv c hc
    · intro h
      have ha : Matches (.cls p) [a] := .cls (h a (List.mem_cons_self a w))
      have hw := ih.mpr (fun c hc => h c (List.mem_cons_of_mem a hc))
      exact .starCons ha hw

theorem matches_plus_cls_iff (p : Char → Bool) (w : List Char) :
    Matches (plus (.cls p)) w ↔ w ≠ [] ∧ ∀ c ∈ w, p c = true := by
  simp only [plus, matches_seq_iff, matches_cls_iff, matches_star_cls_iff]
  constructor
  · rintro ⟨u, v, rfl, ⟨a, rfl, ha⟩, hv⟩
    refine ⟨by simp, ?_⟩
    intro c hc
    rcases List.mem_cons.mp hc with rfl | hc
    · exact ha
    · exact hv c hc
  · rintro ⟨hne, h⟩
    cases w with
    | nil => exact absurd rfl hne
    | cons a w =>
      exact ⟨[a], w, rfl, ⟨a, rfl, h a (List.mem_cons_self a w)⟩,
        fun c hc => h c (List.mem_cons_of_mem a hc)⟩

theorem matches_times_cls_iff (p : Char → Bool) (n : Nat) (w : List Char) :
    Matches (times n (.cls p)) w ↔ w.length = n ∧ ∀ c ∈ w, p c = true := by
  induction n generalizing w with
  | zero =>
    simp only [times, matches_empty_iff]
    constructor
    · rintro rfl
      simp
    · rintro ⟨h, -⟩
      exact List.length_eq_zero.mp h
  | succ n ih =>
    simp only [times, matches_seq_iff, matches_cls_iff, ih]
    constructor
    · rintro ⟨u, v, rfl, ⟨a, rfl, ha⟩, hlen, hv⟩
      refine ⟨by simp [hlen], ?_⟩
      intro c hc
      rcases List.mem_cons.mp hc with rfl | hc
      · exact ha
      · exact hv c hc
    · rintro ⟨hlen, h⟩
      cases w with
      | nil => simp at hlen
      | cons a w =>
        refine ⟨[a], w, rfl, ⟨a, rfl, h a (List.mem_cons_self a w)⟩, ?_,
          fun c hc => h c (List.mem_cons_of_mem a hc)⟩
        simpa using hlen

end Regex

/-- The pattern of line 95 accepts the words of 10 or 11 digits. -/
theorem matches_phonePattern_iff (w : List Char) :
    Regex.Matches phonePattern w ↔
      (w.length = 10 ∨ w.length = 11) ∧ ∀ c ∈ w, isDigit c = true := by
  simp only [phonePattern, Regex.between, Regex.opt, Regex.matches_seq_iff,
    Regex.matches_alt_iff, Regex.matches_empty_iff, Regex.matches_cls_iff,
    Regex.matches_times_cls_iff]
  constructor
  · rintro ⟨u, v, rfl, ⟨hlen, hu⟩, ⟨a, rfl, ha⟩ | rfl⟩
    · refine ⟨.inr (by simp [hlen]), ?_⟩
      intro c hc
      rcases List.mem_append.mp hc with hc | hc
      · exact hu c hc
      · rw [List.mem_singleton.mp hc]
        exact ha
    · refine ⟨.inl (by simp [hlen]), ?_⟩
      intro c hc
      exact hu c (by simpa using hc)
  · rintro ⟨hlen | hlen, h⟩
    · exact ⟨w, [], by simp, ⟨hlen, h⟩, .inr rfl⟩
    · have hne : w ≠ [] := by
        intro h0
        simp [h0] at hlen
      refine ⟨w.dropLast, [w.getLast hne], (List.dropLast_append_getLast hne).symm,
        ⟨by simp [hlen], fun c hc => h c (List.mem_of_mem_dropLast hc)⟩,
        .inl ⟨w.getLast hne, rfl, h _ (List.getLast_mem hne)⟩⟩

/-- The pattern of line 89 accepts the words of the shape `local@domain.tld`. -/
theorem matches_emailPattern_iff (w : List Char) :
    Regex.Matches emailPattern w ↔ EmailShape w := by
  simp only [emailPattern, EmailShape, Regex.matches_seq_iff, Regex.matches_cls_iff,
    Regex.matches_plus_cls_iff]
  constructor
  · rintro ⟨l, _, rfl, ⟨hl, hl2⟩, _, _, rfl, ⟨a, rfl, ha⟩, d, _, rfl, ⟨hd, hd2⟩,
      _, t, rfl, ⟨b, rfl, hb⟩, ht, ht2⟩
    have ha2 : a = '@' := by simpa using ha
    have hb2 : b = '.' := by simpa using hb
    subst ha2 hb2
    exact ⟨l, d, t, by simp, hl, hd, ht, hl2, hd2, ht2⟩
  · rintro ⟨l, d, t, rfl, hl, hd, ht, hl2, hd2, ht2⟩
    exact ⟨l, _, rfl, ⟨hl, hl2⟩, ['@'], _, rfl, ⟨'@', rfl, by simp⟩, d, _, rfl,
      ⟨hd, hd2⟩, ['.'], t, rfl, ⟨'.', rfl, by simp⟩, ht, ht2⟩

/-- The test `!str.trim()` holds exactly for the blank strings. -/
theorem isBlank_iff (s : String) : isBlank s = true ↔ Blank s := by
  simp only [isBlank, trim, Blank, List.isEmpty_iff, List.reverse_eq_nil_iff,
    List.dropWhile_eq_nil_iff, List.mem_reverse]
  constructor
  · intro h
    have h0 : List.dropWhile isWhiteSpace (List.dropWhile isWhiteSpace s.toList) = [] :=
      List.dropWhile_eq_nil_iff.mpr h
    rw [List.dropWhile_idempotent] at h0
    exact List.dropWhile_eq_nil_iff.mp h0
  · intro h
    have h0 : List.dropWhile isWhiteSpace s.toList = [] := List.dropWhile_eq_nil_iff.mpr h
    intro x hx
    change x ∈ List.dropWhile isWhiteSpace s.toList at hx
    rw [h0] at hx
    exact absurd hx (List.not_mem_nil x)

/-! ### Source reconciler and pricing -/

theorem safeBound_lt_infBound : safeBound < infBound := by decide

theorem roundDouble_of_safe (n : Int) (h : n.natAbs ≤ safeBound) : roundDouble n = n := by
  have hlt := safeBound_lt_infBound
  have hni : ¬ infBound ≤ n.natAbs := by omega
  simp only [roundDouble, roundNearestEven, h, if_true, hni, if_false]
  split_ifs <;> omega

theorem isInfinite_of_safe (n : Int) (h : n.natAbs ≤ safeBound) : isInfinite n = false := by
  have hlt := safeBound_lt_infBound
  simp only [isInfinite, decide_eq_false_iff_not]
  omega

/-- Within the safe range the double sum is the exact one. -/
theorem jsAdd_of_safe (x y : Int) (hx : x.natAbs ≤ safeBound) (hy : y.natAbs ≤ safeBound)
    (hxy : (x + y).natAbs ≤ safeBound) : jsAdd (some x) (some y) = some (x + y) := by
  simp only [jsAdd, isInfinite_of_safe x hx, isInfinite_of_safe y hy, Bool.false_eq_true,
    if_false]
  by_cases h0 : y = 0
  · simp [h0]
  · simp [h0, roundDouble_of_safe _ hxy]

/-- Within the safe range the double product is the exact one. -/
theorem jsMul_of_safe (x y : Int) (hx : x.natAbs ≤ safeBound) (hy : y.natAbs ≤ safeBound)
    (hxy : (x * y).natAbs ≤ safeBound) : jsMul (some x) (some y) = some (x * y) := by
  simp [jsMul, isInfinite_of_safe x hx, isInfinite_of_safe y hy, roundDouble_of_safe _ hxy]

theorem foldl_reduceStep_none (items : List LineItem) :
    items.foldl reduceStep none = none := by
  induction items with
  | nil => rfl
  | cons item rest ih => simpa [List.foldl_cons, reduceStep, jsAdd] using ih

theorem jsAdd_none_right (a : JsNum) : jsAdd a none = none := by
  cases a <;> rfl

theorem foldl_reduceStep_missing (items : List LineItem) (h : lineSum items = none)
    (acc : JsNum) : items.foldl reduceStep acc = none := by
  induction items generalizing acc with
  | nil => simp [lineSum] at h
  | cons item rest ih =>
    rw [List.foldl_cons]
    rcases hq : item.so_luong with _ | q
    · simp only [reduceStep, hq, jsMul, jsAdd_none_right]
      exact foldl_reduceStep_none rest
    · rcases ht : lineSum rest with _ | t
      · exact ih ht _
      · simp [lineSum, hq, ht] at h

theorem safeBound_eq : safeBound = 2 ^ 53 := rfl

/-- The fold of `reduce` from an exact accumulator is exact as long as the
magnitudes met on the way stay within `2 ^ 53`. -/
theorem foldl_reduceStep_exact (items : List LineItem) (a : Int)
    (hsafe : ∀ item ∈ items, SafeInt item.gia ∧ ∀ q, item.so_luong = some q → SafeInt q)
    (hbound : a.natAbs + lineMagnitude items ≤ 2 ^ 53) :
    items.foldl reduceStep (some a) = (lineSum items).map (fun t => a + t) := by
  induction items generalizing a with
  | nil => simp [lineSum]
  | cons item rest ih =>
    have hrest : ∀ i ∈ rest, SafeInt i.gia ∧ ∀ q, i.so_luong = some q → SafeInt q :=
      fun i hi => hsafe i (List.mem_cons_of_mem item hi)
    have hitem := hsafe item (List.mem_cons_self item rest)
    rcases hq : item.so_luong with _ | q
    · have hnone : lineSum (item :: rest) = none := by simp [lineSum, hq]
      rw [foldl_reduceStep_missing _ hnone, hnone]
      rfl
    · simp only [lineMagnitude, hq] at hbound
      have hg : item.gia.natAbs ≤ safeBound := hitem.1
      have hqs : q.natAbs ≤ safeBound := hitem.2 q hq
      have hm : (item.gia * q).natAbs ≤ safeBound := by rw [safeBound_eq]; omega
      have ha : a.natAbs ≤ safeBound := by rw [safeBound_eq]; omega
      have hsum : (a + item.gia * q).natAbs ≤ a.natAbs + (item.gia * q).natAbs :=
        Int.natAbs_add_le _ _
      have ham : (a + item.gia * q).natAbs ≤ safeBound := by rw [safeBound_eq]; omega
      have hstep : reduceStep (some a) item = some (a + item.gia * q) := by
        simp only [reduceStep, hq, jsMul_of_safe _ _ hg hqs hm, jsAdd_of_safe _ _ ha hm ham]
      rw [List.foldl_cons, hstep, ih (a + item.gia * q) hrest (by omega)]
      rcases ht : lineSum rest with _ | t
      · simp [lineSum, hq, ht]
      · simp [lineSum, hq, ht, add_assoc]

theorem sampleItem_safe_pair (g1 q1 g2 q2 : Int)
    (h : g1.natAbs ≤ 2 ^ 53 ∧ q1.natAbs ≤ 2 ^ 53 ∧ g2.natAbs ≤ 2 ^ 53 ∧ q2.natAbs ≤ 2 ^ 53) :
    ∀ item ∈ (some [sampleItem g1 (some q1), sampleItem g2 (some q2)]).getD [],
      SafeInt item.gia ∧ ∀ q, item.so_luong = some q → SafeInt q := by
  intro item hitem
  simp only [Option.getD_some, List.mem_cons, List.mem_singleton, List.not_mem_nil,
    or_false] at hitem
  rcases hitem with rfl | rfl
  · refine ⟨h.1, ?_⟩
    intro q hq
    simp only [sampleItem, Option.some.injEq] at hq
    subst hq
    exact h.2.1
  · refine ⟨h.2.2.1, ?_⟩
    intro q hq
    simp only [sampleItem, Option.some.injEq] at hq
    subst hq
    exact h.2.2.2

/-- C1 as stated fails: for the selected list of three items priced
9007199254740992 (2 ^ 53), 1 and 1, of quantity 1 each, the effect stores the
subtotal 9007199254740992 (each addition of 1 rounds back), while the sum of
`gia × so_luong` over the stored list is 9007199254740994. -/
theorem calculateFinal_subtotal_rounds :
    calculateFinal none
        (some [sampleItem 9007199254740992 (some 1), sampleItem 1 (some 1),
          sampleItem 1 (some 1)]) none (some 0) =
        ([sampleItem 9007199254740992 (some 1), sampleItem 1 (some 1),
          sampleItem 1 (some 1)], some 9007199254740992) ∧
      lineSum [sampleItem 9007199254740992 (some 1), sampleItem 1 (some 1),
        sampleItem 1 (some 1)] = some 9007199254740994 := by
  constructor <;> decide

/-- C1, amended: whatever the three inputs are, the subtotal stored by the
reconciling effect is the sum of `gia × so_luong` over the stored line items
when a direct product supplies them (both are its `gia`), and also when a
non-empty selected list
supplies them provided every `gia` and `so_luong` of the list has magnitude at
most `2 ^ 53` and the magnitudes `|gia × so_luong|` add up to at most `2 ^ 53`;
it is the cart's own `totalAmount`, untouched, when the cart supplies them;
with no source at all the list is empty and the subtotal is 0. -/
theorem calculateFinal_subtotal (directProduct : Option DirectProduct)
    (cartItemsFromRoute cartItems : Option (List LineItem)) (totalAmount : JsNum) :
    (∀ d, directProduct = some d →
        (calculateFinal directProduct cartItemsFromRoute cartItems totalAmount).2 = some d.gia ∧
          lineSum (calculateFinal directProduct cartItemsFromRoute cartItems totalAmount).1 =
            some d.gia) ∧
      ((directProduct = none ∧ cartItemsFromRoute.getD [] ≠ [] ∧
          (∀ item ∈ cartItemsFromRoute.getD [],
            SafeInt item.gia ∧ ∀ q, item.so_luong = some q → SafeInt q) ∧
          lineMagnitude (cartItemsFromRoute.getD []) ≤ 2 ^ 53) →
        calculateFinal directProduct cartItemsFromRoute cartItems totalAmount =
          (cartItemsFromRoute.getD [], lineSum (cartItemsFromRoute.getD []))) ∧
      ((directProduct = none ∧ cartItemsFromRoute.getD [] = [] ∧ cartItems.getD [] ≠ []) →
        calculateFinal directProduct cartItemsFromRoute cartItems totalAmount =
          (cartItems.getD [], totalAmount)) ∧
      ((directProduct = none ∧ cartItemsFromRoute.getD [] = [] ∧ cartItems.getD [] = []) →
        calculateFinal directProduct cartItemsFromRoute cartItems totalAmount = ([], some 0)) := by
  refine ⟨?_, ?_, ?_, ?_⟩
  · rintro d rfl
    simp [calculateFinal, lineSum, directLineItem]
  · rintro ⟨rfl, hr, hsafe, hbound⟩
    rcases cartItemsFromRoute with _ | _ | ⟨r, rs⟩
    · simp at hr
    · simp at hr
    · simp only [Option.getD_some] at hsafe hbound
      have h := foldl_reduceStep_exact (r :: rs) 0 hsafe (by simpa using hbound)
      simp only [calculateFinal, Option.getD_some, h]
      rcases lineSum (r :: rs) with _ | t <;> simp
  · rintro ⟨rfl, hr, hc⟩
    rcases cartItemsFromRoute with _ | _ | ⟨r, rs⟩
    · rcases cartItems with _ | _ | ⟨c, cs⟩
      · simp at hc
      · simp at hc
      · rfl
    · rcases cartItems with _ | _ | ⟨c, cs⟩
      · simp at hc
      · simp at hc
      · rfl
    · simp at hr
  · rintro ⟨rfl, hr, hc⟩
    rcases cartItemsFromRoute with _ | _ | ⟨r, rs⟩
    · rcases cartItems with _ | _ | ⟨c, cs⟩
      · rfl
      · rfl
      · simp at hc
    · rcases cartItems with _ | _ | ⟨c, cs⟩
      · rfl
      · rfl
      · simp at hc
    · simp at hr

/-- Witness of C1: a direct product priced 500000 gives the subtotal 500000,
a selected list of two items (2 × 150000 and 1 × 90000) gives the subtotal
390000, their sum, and a cart whose own total 999 differs
from the 200 its single item adds up to keeps the subtotal 999. -/
theorem calculateFinal_subtotal_witness :
    (calculateFinal (some (sampleProduct 500000)) none none (some 0)).2 = some 500000 ∧
    calculateFinal none (some [sampleItem 150000 (some 2), sampleItem 90000 (some 1)])
        (some [sampleItem 100 (some 2)]) (some 999) =
        ([sampleItem 150000 (some 2), sampleItem 90000 (some 1)], some 390000) ∧
      calculateFinal none none (some [sampleItem 100 (some 2)]) (some 999) =
        ([sampleItem 100 (some 2)], some 999) ∧
      lineSum [sampleItem 100 (some 2)] = some 200 ∧
      calculateFinal none (some []) none (some 999) = ([], some 0) := by
  have h1 := (calculateFinal_subtotal none
    (some [sampleItem 150000 (some 2), sampleItem 90000 (some 1)])
    (some [sampleItem 100 (some 2)]) (some 999)).2.1
      ⟨rfl, by decide, sampleItem_safe_pair 150000 2 90000 1 (by decide), by decide⟩
  have h2 := (calculateFinal_subtotal none none (some [sampleItem 100 (some 2)])
    (some 999)).2.2.1 ⟨rfl, by decide, by decide⟩
  have h3 := (calculateFinal_subtotal none (some []) none (some 999)).2.2.2
    ⟨rfl, by decide, by decide⟩
  have h0 := ((calculateFinal_subtotal (some (sampleProduct 500000)) none none
    (some 0)).1 _ rfl).1
  refine ⟨h0, ?_, h2, by decide, h3⟩
  rw [h1]
  decide

/-- C2: a direct product always wins. Whatever the selected list and the
cart hold, the effect stores the one line item built from the product, with
quantity 1 and the placeholder image when the product has no first image, and
the product's price as subtotal; the result is the one obtained with no
selected list and no cart at all. -/
theorem calculateFinal_direct (d : DirectProduct)
    (cartItemsFromRoute cartItems : Option (List LineItem)) (totalAmount : JsNum) :
    calculateFinal (some d) cartItemsFromRoute cartItems totalAmount =
        ([{ id_product := d.id, ten := d.ten, gia := d.gia, so_luong := some 1,
            danh_muc := d.danh_muc,
            images := some (match d.images with
              | some (img :: _) => if img = "" then "/placeholder.jpg" else img
              | _ => "/placeholder.jpg") }], some d.gia) ∧
      calculateFinal (some d) cartItemsFromRoute cartItems totalAmount =
        calculateFinal (some d) none none (some 0) := by
  refine ⟨?_, rfl⟩
  rcases d with ⟨id, ten, gia, danh_muc, _ | _ | ⟨img, imgs⟩⟩ <;>
    simp [calculateFinal, directLineItem, strOr]

/-- C3: for a subtotal `s ≥ 0` the shipping cost is 0 above 1,000,000 and
30,000 up to and including it, and the order total is their sum; 1,000,000
pays 30,000 (total 1,030,000) and 1,000,001 pays nothing (total 1,000,001). -/
theorem shippingCost_orderTotal (s : Nat) :
    shippingCost (some (s : Int)) = (if s > 1000000 then 0 else 30000) ∧
      orderTotal (some (s : Int)) = some ((s : Int) + shippingCost (some (s : Int))) ∧
      shippingCost (some 1000000) = 30000 ∧ orderTotal (some 1000000) = some 1030000 ∧
      shippingCost (some 1000001) = 0 ∧ orderTotal (some 1000001) = some 1000001 := by
  have hship : shippingCost (some (s : Int)) = (if s > 1000000 then 0 else 30000) := by
    simp only [shippingCost, jsGt, decide_eq_true_eq]
    by_cases h : s > 1000000
    · have h2 : (1000000 : Int) < s := by exact_mod_cast h
      simp [h, h2]
    · have h2 : ¬ (1000000 : Int) < s := by exact_mod_cast h
      simp [h, h2]
  refine ⟨hship, ?_, by decide, by decide, by decide, by decide⟩
  rw [orderTotal, hship]
  by_cases h : s > 1000000
  · simp only [h, if_true, add_zero]
    have h0 : isInfinite 0 = false := by decide
    simp only [jsAdd, h0, Bool.false_and, Bool.false_eq_true, if_false, if_true]
    split_ifs <;> rfl
  · simp only [h, if_false]
    have hs : (s : Int).natAbs ≤ safeBound := by rw [safeBound_eq]; omega
    have hy : (30000 : Int).natAbs ≤ safeBound := by decide
    have hsum : ((s : Int) + 30000).natAbs ≤ safeBound := by rw [safeBound_eq]; omega
    exact jsAdd_of_safe _ _ hs hy hsum

/-! ### Field validator -/

theorem emailError_eq_none_iff (email : String) :
    emailError email = none ↔ ¬ Blank email ∧ EmailShape email.toList := by
  rw [← isBlank_iff, ← matches_emailPattern_iff, ← Regex.test_iff]
  unfold emailError
  by_cases hb : isBlank email = true
  · simp [hb]
  · by_cases ht : emailPattern.test email.toList = true
    · simp [hb, ht]
    · simp [hb, ht]

theorem emailError_required_iff (email : String) :
    emailError email = some "Vui lòng nhập email" ↔ Blank email := by
  rw [← isBlank_iff]
  unfold emailError
  by_cases hb : isBlank email = true
  · simp [hb]
  · by_cases ht : emailPattern.test email.toList = true
    · simp [hb, ht]
    · simp only [hb, ht]
      decide

theorem emailError_format_iff (email : String) :
    emailError email = some "Email không hợp lệ" ↔
      ¬ Blank email ∧ ¬ EmailShape email.toList := by
  rw [← isBlank_iff, ← matches_emailPattern_iff, ← Regex.test_iff]
  unfold emailError
  have hne : ("Vui lòng nhập email" : String) ≠ "Email không hợp lệ" := by decide
  by_cases hb : isBlank email = true
  · simp [hb, hne]
  · by_cases ht : emailPattern.test email.toList = true
    · simp [hb, ht]
    · simp [hb, ht]

/-- C7: `validateForm` stores an email error exactly when the email is blank
or lacks the shape `local@domain.tld` (three non-empty segments without white
space or `@`, split by an `@` and a dot); the message is the required-field
one exactly for a blank email and the format one exactly for a non-blank
email without the shape. `a@b.c` gets no error, `a@b` the format error and
the empty string the required-field error. -/
theorem validateForm_email (s : State) :
    ((validateForm s).1.formErrors.email ≠ none ↔
        Blank s.customerInfo.email ∨ ¬ EmailShape s.customerInfo.email.toList) ∧
      ((validateForm s).1.formErrors.email = some "Vui lòng nhập email" ↔
        Blank s.customerInfo.email) ∧
      ((validateForm s).1.formErrors.email = some "Email không hợp lệ" ↔
        ¬ Blank s.customerInfo.email ∧ ¬ EmailShape s.customerInfo.email.toList) ∧
      (validateForm { s with customerInfo := { s.customerInfo with email := "a@b.c" } }
        ).1.formErrors.email = none ∧
      (validateForm { s with customerInfo := { s.customerInfo with email := "a@b" } }
        ).1.formErrors.email = some "Email không hợp lệ" ∧
      (validateForm { s with customerInfo := { s.customerInfo with email := "" } }
        ).1.formErrors.email = some "Vui lòng nhập email" := by
  have hv : ∀ t : State, (validateForm t).1.formErrors.email = emailError t.customerInfo.email :=
    fun _ => rfl
  simp only [hv]
  refine ⟨?_, emailError_required_iff _, emailError_format_iff _, by decide, by decide,
    by decide⟩
  rw [Ne, emailError_eq_none_iff]
  tauto

theorem deleteAll_notDigit (s : String) : deleteAll notDigit s.toList = digitsOf s := by
  simp [deleteAll, digitsOf, notDigit]

theorem test_phonePattern_digitsOf (s : String) :
    phonePattern.test (digitsOf s) = true ↔
      (digitsOf s).length = 10 ∨ (digitsOf s).length = 11 := by
  rw [Regex.test_iff, matches_phonePattern_iff]
  constructor
  · exact fun h => h.1
  · intro h
    refine ⟨h, ?_⟩
    intro c hc
    exact (List.mem_filter.mp hc).2

theorem phoneError_eq_none_iff (phone : String) :
    phoneError phone = none ↔
      ¬ Blank phone ∧ ((digitsOf phone).length = 10 ∨ (digitsOf phone).length = 11) := by
  rw [← isBlank_iff, ← test_phonePattern_digitsOf, ← deleteAll_notDigit]
  unfold phoneError
  by_cases hb : isBlank phone = true
  · simp [hb]
  · by_cases ht : phonePattern.test (deleteAll notDigit phone.toList) = true
    · simp [hb, ht]
    · simp [hb, ht]

theorem phoneError_required_iff (phone : String) :
    phoneError phone = some "Vui lòng nhập số điện thoại" ↔ Blank phone := by
  rw [← isBlank_iff]
  unfold phoneError
  by_cases hb : isBlank phone = true
  · simp [hb]
  · by_cases ht : phonePattern.test (deleteAll notDigit phone.toList) = true
    · simp [hb, ht]
    · simp only [hb, ht]
      decide

/-- C8: `validateForm` stores no phone error exactly when the phone is not
blank and the digits left after deleting every other character number 10 or
11; it stores the required-field error exactly when the phone is blank.
`0901234567` and `090-123-4567` get no error, `12345` gets the format error. -/
theorem validateForm_phone (s : State) :
    ((validateForm s).1.formErrors.phone = none ↔
        ¬ Blank s.customerInfo.phone ∧
          ((digitsOf s.customerInfo.phone).length = 10 ∨
            (digitsOf s.customerInfo.phone).length = 11)) ∧
      ((validateForm s).1.formErrors.phone = some "Vui lòng nhập số điện thoại" ↔
        Blank s.customerInfo.phone) ∧
      (validateForm { s with customerInfo := { s.customerInfo with phone := "0901234567" } }
        ).1.formErrors.phone = none ∧
      (validateForm { s with customerInfo := { s.customerInfo with phone := "090-123-4567" } }
        ).1.formErrors.phone = none ∧
      (validateForm { s with customerInfo := { s.customerInfo with phone := "12345" } }
        ).1.formErrors.phone = some "Số điện thoại không hợp lệ" := by
  have hv : ∀ t : State, (validateForm t).1.formErrors.phone = phoneError t.customerInfo.phone :=
    fun _ => rfl
  simp only [hv]
  exact ⟨phoneError_eq_none_iff _, phoneError_required_iff _, by decide, by decide, by decide⟩

/-! ### Order submitter -/

theorem validateForm_sampleState (out : List LineItem × JsNum) (paymentMethod : String) :
    (validateForm (sampleState out paymentMethod)).2 = true := by
  have h : validationErrors sampleBuyer = {} := by decide
  simp [validateForm, sampleState, h, FormErrors.noKeys]

/-- The handler sends at most one request, the one built from the state it
was called in, and sends it exactly when the form is valid. -/
theorem postedOrders_handleSubmit (s : State) (now : String)
    (backend : OrderData → FetchOutcome) :
    postedOrders (handleSubmit s now backend).2 =
      if (validateForm s).2 = true then [buildOrderData s now] else [] := by
  unfold handleSubmit
  by_cases hv : (validateForm s).2 = true
  · simp only [hv, Bool.not_true, Bool.false_eq_true, if_false, if_true]
    rcases backend (buildOrderData s now) with m | ⟨ok, m | result⟩
    · rfl
    · rfl
    · dsimp only
      split_ifs <;> rfl
  · have hf : (validateForm s).2 = false := by simpa using hv
    simp [hf, postedOrders]

/-- C4, at scenario A: the buyer is shown the grand total 530,000 (subtotal
500,000 plus 30,000 shipping) while the one request sent carries
`totalAmount` 500,000, the bare subtotal. -/
theorem handleSubmit_totalAmount_scenarioA :
    scenarioA.finalTotalAmount = some 500000 ∧
      shippingCost scenarioA.finalTotalAmount = 30000 ∧
      orderTotal scenarioA.finalTotalAmount = some 530000 ∧
      (postedOrders (handleSubmit scenarioA sampleNow
        (replyWith true ⟨some "success", none, none, some "X1"⟩)).2).map
          (fun order => order.totalAmount) = [some 500000] := by
  refine ⟨by decide, by decide, by decide, ?_⟩
  rw [postedOrders_handleSubmit]
  decide

/-- C5 as stated fails: in scenario A a response whose body says
`status: "success"` with `orderId: "X1"` but whose HTTP status is not ok ends
in the error branch: the request is the only effect (no cart clearing, no
navigation, no redirect) and the generic error is shown. -/
theorem handleSubmit_success_not_ok :
    (handleSubmit scenarioA sampleNow
        (replyWith false ⟨some "success", none, none, some "X1"⟩)).2 =
        [.post "http://localhost/backend/payments.php" (buildOrderData scenarioA sampleNow)] ∧
      (handleSubmit scenarioA sampleNow
        (replyWith false ⟨some "success", none, none, some "X1"⟩)).1.error =
        "Có lỗi xảy ra trong quá trình xử lý" := by
  constructor <;> decide

/-- C5, amended: when the form is valid and the backend answers the request
with a body that has `status: "success"`, then, if the response is HTTP-ok,
the handler redirects to `payUrl` when the payment method is `vnpay` and
`payUrl` is present and not empty, and otherwise clears the cart and navigates
to the confirmation view with the `orderId` of the response; the cart is
cleared in that last case only. If the response is not HTTP-ok it is handled
as a failure: the request is the only effect, the error shown is the message
of the response or the generic text, and `isProcessing` is back to false. -/
theorem handleSubmit_success (s : State) (now : String)
    (backend : OrderData → FetchOutcome) (ok : Bool) (result : Result)
    (hvalid : (validateForm s).2 = true)
    (hresp : backend (buildOrderData s now) = .response ok (.json result))
    (hstatus : result.status = some "success") :
    (handleSubmit s now backend).2 =
        (if ok = true then
          (if s.paymentMethod = "vnpay" ∧ strTruthy result.payUrl = true then
            [.post "http://localhost/backend/payments.php" (buildOrderData s now),
              .redirect (result.payUrl.getD "")]
          else
            [.post "http://localhost/backend/payments.php" (buildOrderData s now),
              .clearCart, .navigate "/thankyou" result.orderId])
        else [.post "http://localhost/backend/payments.php" (buildOrderData s now)]) ∧
      (Effect.clearCart ∈ (handleSubmit s now backend).2 ↔
        ok = true ∧ ¬ (s.paymentMethod = "vnpay" ∧ strTruthy result.payUrl = true)) ∧
      (ok = false →
        (handleSubmit s now backend).1.error =
            strOr result.message "Có lỗi xảy ra trong quá trình xử lý" ∧
          (handleSubmit s now backend).1.isProcessing = false) := by
  cases ok with
  | false =>
    have key : handleSubmit s now backend =
        ({ (validateForm s).1 with
            error := strOr result.message "Có lỗi xảy ra trong quá trình xử lý",
            isProcessing := false },
          [.post "http://localhost/backend/payments.php" (buildOrderData s now)]) := by
      unfold handleSubmit
      simp [hvalid, hresp]
    rw [key]
    refine ⟨by simp, by simp, fun _ => ⟨rfl, rfl⟩⟩
  | true =>
    have key : (handleSubmit s now backend).2 =
        (if s.paymentMethod = "vnpay" ∧ strTruthy result.payUrl = true then
          [.post "http://localhost/backend/payments.php" (buildOrderData s now),
            .redirect (result.payUrl.getD "")]
        else
          [.post "http://localhost/backend/payments.php" (buildOrderData s now),
            .clearCart, .navigate "/thankyou" result.orderId]) := by
      unfold handleSubmit
      simp only [hvalid, hresp, hstatus, Bool.not_true, Bool.false_eq_true, if_false,
        Bool.true_and, beq_self_eq_true, if_true]
      by_cases hp : s.paymentMethod = "vnpay" ∧ strTruthy result.payUrl = true
      · simp [hp.1, hp.2]
      · rw [if_neg hp]
        have hb : (s.paymentMethod == "vnpay" && strTruthy result.payUrl) = false := by
          simpa using hp
        simp [hb]
    refine ⟨by simpa using key, ?_, by simp⟩
    rw [key]
    by_cases hp : s.paymentMethod = "vnpay" ∧ strTruthy result.payUrl = true
    · simp [hp]
    · simp [hp]

/-- Witness of C5, scenarios B and A: with VNPay and the answer
`status: "success", payUrl: "https://pay/abc"` the handler posts the order and
redirects to that URL without clearing the cart; with cash on delivery and
the answer `status: "success", orderId: "X1"` it posts the order, clears the
cart and navigates to the confirmation view with `X1`; with VNPay and the
first answer on a response that is not HTTP-ok it only posts the order. -/
theorem handleSubmit_success_witness :
    (handleSubmit scenarioB sampleNow
        (replyWith true ⟨some "success", none, some "https://pay/abc", none⟩)).2 =
        [.post "http://localhost/backend/payments.php" (buildOrderData scenarioB sampleNow),
          .redirect "https://pay/abc"] ∧
      (handleSubmit scenarioA sampleNow
        (replyWith true ⟨some "success", none, none, some "X1"⟩)).2 =
        [.post "http://localhost/backend/payments.php" (buildOrderData scenarioA sampleNow),
          .clearCart, .navigate "/thankyou" (some "X1")] ∧
      (handleSubmit scenarioB sampleNow
        (replyWith false ⟨some "success", none, some "https://pay/abc", none⟩)).2 =
        [.post "http://localhost/backend/payments.php" (buildOrderData scenarioB sampleNow)] := by
  have hB := (handleSubmit_success scenarioB sampleNow
    (replyWith true ⟨some "success", none, some "https://pay/abc", none⟩) true
    ⟨some "success", none, some "https://pay/abc", none⟩
    (validateForm_sampleState _ _) rfl rfl).1
  have hA := (handleSubmit_success scenarioA sampleNow
    (replyWith true ⟨some "success", none, none, some "X1"⟩) true
    ⟨some "success", none, none, some "X1"⟩ (validateForm_sampleState _ _) rfl rfl).1
  have hN := (handleSubmit_success scenarioB sampleNow
    (replyWith false ⟨some "success", none, some "https://pay/abc", none⟩) false
    ⟨some "success", none, some "https://pay/abc", none⟩
    (validateForm_sampleState _ _) rfl rfl).1
  refine ⟨?_, ?_, ?_⟩
  · rw [hB]
    decide
  · rw [hA]
    decide
  · rw [hN]
    decide

/-- C6: when the form is valid and the backend answers the request with a
body whose `status` is not `"success"`, the handler ends in the error branch:
the error shown is the message of the response when it has a non-empty one and
the generic text otherwise, `isProcessing` is back to false, the request is
the only effect (the cart is not cleared, nothing navigates), and the line
items, the subtotal, the buyer record and the payment method are unchanged. -/
theorem handleSubmit_failure (s : State) (now : String)
    (backend : OrderData → FetchOutcome) (ok : Bool) (result : Result)
    (hvalid : (validateForm s).2 = true)
    (hresp : backend (buildOrderData s now) = .response ok (.json result))
    (hstatus : result.status ≠ some "success") :
    (∀ m, result.message = some m → m ≠ "" → (handleSubmit s now backend).1.error = m) ∧
      (result.message = none ∨ result.message = some "" →
        (handleSubmit s now backend).1.error = "Có lỗi xảy ra trong quá trình xử lý") ∧
      (handleSubmit s now backend).1.isProcessing = false ∧
      (handleSubmit s now backend).2 =
        [.post "http://localhost/backend/payments.php" (buildOrderData s now)] ∧
      (handleSubmit s now backend).1.finalCartItems = s.finalCartItems ∧
      (handleSubmit s now backend).1.finalTotalAmount = s.finalTotalAmount ∧
      (handleSubmit s now backend).1.customerInfo = s.customerInfo ∧
      (handleSubmit s now backend).1.paymentMethod = s.paymentMethod := by
  have hst : (result.status == some "success") = false := by simpa using hstatus
  have key : handleSubmit s now backend =
      ({ (validateForm s).1 with
          error := strOr result.message "Có lỗi xảy ra trong quá trình xử lý",
          isProcessing := false },
        [.post "http://localhost/backend/payments.php" (buildOrderData s now)]) := by
    unfold handleSubmit
    simp [hvalid, hresp, hst]
  rw [key]
  refine ⟨?_, ?_, rfl, rfl, rfl, rfl, rfl, rfl⟩
  · intro m hm hne
    simp [strOr, hm, hne]
  · rintro (hm | hm) <;> simp [strOr, hm]

/-- Witness of C6, scenario D: the answer `status: "error", message: "out of
stock"` shows exactly `out of stock`, releases the guard and leaves the
request as the only effect. -/
theorem handleSubmit_failure_witness :
    (handleSubmit scenarioA sampleNow
        (replyWith true ⟨some "error", some "out of stock", none, none⟩)).1.error =
        "out of stock" ∧
      (handleSubmit scenarioA sampleNow
        (replyWith true ⟨some "error", some "out of stock", none, none⟩)).1.isProcessing =
        false ∧
      (handleSubmit scenarioA sampleNow
        (replyWith true ⟨some "error", some "out of stock", none, none⟩)).2 =
        [.post "http://localhost/backend/payments.php" (buildOrderData scenarioA sampleNow)] ∧
      checkoutDisabled (handleSubmit scenarioA sampleNow
        (replyWith true ⟨some "error", some "out of stock", none, none⟩)).1 = false := by
  have h := handleSubmit_failure scenarioA sampleNow
    (replyWith true ⟨some "error", some "out of stock", none, none⟩) true
    ⟨some "error", some "out of stock", none, none⟩ (validateForm_sampleState _ _) rfl
    (by decide)
  refine ⟨h.1 "out of stock" rfl (by decide), h.2.2.1, h.2.2.2.1, ?_⟩
  simp only [checkoutDisabled, h.2.2.1, h.2.2.2.2.1]
  decide

theorem checkoutDisabled_of_empty (s : State) (hempty : s.finalCartItems = []) :
    checkoutDisabled s = true := by
  simp [checkoutDisabled, hempty]

theorem step_of_empty (s : State) (hempty : s.finalCartItems = []) (event : UiEvent) :
    (step s event).2 = [] ∧ (step s event).1.finalCartItems = [] := by
  cases event with
  | change field value => exact ⟨rfl, hempty⟩
  | selectCod => exact ⟨rfl, hempty⟩
  | selectVnpay => exact ⟨rfl, hempty⟩
  | press constraintsOk now backend =>
    simp [step, pressCheckout, checkoutDisabled_of_empty s hempty, hempty]

/-- C9: whatever the buyer record and the payment method, when the list of
line items is empty the checkout button is disabled, so that activating it
is rejected before `handleSubmit` runs: the state is unchanged and there is
no effect (no request, no cart clearing, no navigation), whatever the
browser's own checks, the clock and the backend would say. The same holds
all along any sequence of edits, payment choices and presses that starts
there: it has no effect and the list stays empty. -/
theorem pressCheckout_empty (s : State) (hempty : s.finalCartItems = []) :
    checkoutDisabled s = true ∧
      (∀ (constraintsOk : CustomerInfo → Bool) (now : String)
          (backend : OrderData → FetchOutcome),
        pressCheckout s constraintsOk now backend = (s, [])) ∧
      (∀ events : List UiEvent,
        (run s events).2 = [] ∧ (run s events).1.finalCartItems = []) := by
  have hd := checkoutDisabled_of_empty s hempty
  refine ⟨hd, fun _ _ _ => by simp [pressCheckout, hd], ?_⟩
  intro events
  induction events generalizing s with
  | nil => exact ⟨rfl, hempty⟩
  | cons event events ih =>
    have hstep := step_of_empty s hempty event
    have hrest := ih (step s event).1 hstep.2 (checkoutDisabled_of_empty _ hstep.2)
    simp only [run, hstep.1, List.nil_append]
    exact hrest

/-- Witness of C9, scenario C: the buyer record is valid, yet the button is
disabled, pressing it sends nothing, and so does retyping the email, choosing
VNPay and pressing again. -/
theorem pressCheckout_empty_witness :
    (validateForm scenarioC).2 = true ∧ checkoutDisabled scenarioC = true ∧
      pressCheckout scenarioC (fun _ => true) sampleNow
        (replyWith true ⟨some "success", none, none, some "X1"⟩) = (scenarioC, []) ∧
      (run scenarioC
        [.change .email "b@c.d", .selectVnpay,
          .press (fun _ => true) sampleNow
            (replyWith true ⟨some "success", none, none, some "X1"⟩)]).2 = [] :=
  ⟨validateForm_sampleState _ _,
    (pressCheckout_empty scenarioC (by decide)).1,
    (pressCheckout_empty scenarioC (by decide)).2.1 _ _ _,
    ((pressCheckout_empty scenarioC (by decide)).2.2 _).1⟩

theorem numOr_one_ne_zero (a : Option Int) : numOr a 1 ≠ 0 := by
  unfold numOr
  rcases a with _ | x
  · decide
  · by_cases hx : x = 0
    · simp [hx]
    · simp [hx]

theorem numOr_one_pos (a : Option Int) (h : ∀ q, a = some q → 0 ≤ q) : 0 < numOr a 1 := by
  unfold numOr
  rcases a with _ | x
  · decide
  · have hx := h x rfl
    by_cases h0 : x = 0
    · simp [h0]
    · simp only [h0, if_false]
      omega

/-- C10 as stated fails: in a selection whose item has quantity -2 and price
100, the request sent carries that item with quantity -2 and the negative
amount -200; the subtotal sent is -200 as well. -/
theorem handleSubmit_negative_quantity :
    (postedOrders (handleSubmit scenarioNegative sampleNow
        (replyWith true ⟨some "success", none, none, some "X1"⟩)).2).map
          (fun order => order.cartItems.map (fun o => (o.gia, o.so_luong, o.gia * o.so_luong))) =
        [[(100, -2, -200)]] ∧
      scenarioNegative.finalTotalAmount = some (-200) := by
  rw [postedOrders_handleSubmit]
  constructor <;> decide

/-- C10, amended: in every order request sent by `handleSubmit` the line
items are the reconciled ones, each with a quantity other than 0: a missing
or zero `so_luong` is sent as 1 and any other quantity is sent as it is. So
when no reconciled item has a negative quantity every item sent has
`so_luong > 0`, and when moreover no price is negative every item sent has
`gia × so_luong ≥ 0`. -/
theorem handleSubmit_quantities (s : State) (now : String)
    (backend : OrderData → FetchOutcome) (order : OrderData)
    (hsent : order ∈ postedOrders (handleSubmit s now backend).2) :
    order.cartItems = s.finalCartItems.map toOrderItem ∧
      (∀ o ∈ order.cartItems, o.so_luong ≠ 0) ∧
      (∀ item : LineItem, item.so_luong = none ∨ item.so_luong = some 0 →
        (toOrderItem item).so_luong = 1) ∧
      (∀ (item : LineItem) (q : Int), item.so_luong = some q → q ≠ 0 →
        (toOrderItem item).so_luong = q) ∧
      ((∀ item ∈ s.finalCartItems, ∀ q, item.so_luong = some q → 0 ≤ q) →
        ∀ o ∈ order.cartItems, 0 < o.so_luong) ∧
      ((∀ item ∈ s.finalCartItems, 0 ≤ item.gia ∧ ∀ q, item.so_luong = some q → 0 ≤ q) →
        ∀ o ∈ order.cartItems, 0 ≤ o.gia * o.so_luong) := by
  rw [postedOrders_handleSubmit] at hsent
  have horder : order = buildOrderData s now := by
    by_cases hv : (validateForm s).2 = true
    · simpa [hv] using hsent
    · simp [hv] at hsent
  subst horder
  refine ⟨rfl, ?_, ?_, ?_, ?_, ?_⟩
  · intro o ho
    obtain ⟨item, -, rfl⟩ := List.mem_map.mp ho
    exact numOr_one_ne_zero item.so_luong
  · rintro item (h | h) <;> simp [toOrderItem, numOr, h]
  · intro item q h hq
    simp [toOrderItem, numOr, h, hq]
  · intro hall o ho
    obtain ⟨item, hitem, rfl⟩ := List.mem_map.mp ho
    exact numOr_one_pos item.so_luong (hall item hitem)
  · intro hall o ho
    obtain ⟨item, hitem, rfl⟩ := List.mem_map.mp ho
    have hq := numOr_one_pos item.so_luong (hall item hitem).2
    exact Int.mul_nonneg (hall item hitem).1 (Int.le_of_lt hq)

/-- Witness of C10: in scenario B extended with an item of quantity 0 and an
item without quantity, the request sent carries the quantities 2, 1, 1 and 1;
in particular the item without quantity is sent with a positive one. -/
theorem handleSubmit_quantities_witness :
    (buildOrderData scenarioDefaults sampleNow).cartItems.map (fun o => o.so_luong) =
        [2, 1, 1, 1] ∧
      0 < (toOrderItem (sampleItem 7 none)).so_luong :=
  ⟨by decide,
    (handleSubmit_quantities scenarioDefaults sampleNow
      (replyWith true ⟨some "success", none, none, some "X1"⟩)
      (buildOrderData scenarioDefaults sampleNow)
      (by rw [postedOrders_handleSubmit]; decide)).2.2.2.2.1 (by decide)
      (toOrderItem (sampleItem 7 none)) (by decide)⟩

end Checkout

